import Mathlib

/-!
Shallow embedding of the Finextract frontend (TypeScript) in Lean 4.

The embedded code:
* `types.ts`              — `LineItem`, `FinancialData`, `AppStatus`
* `services/geminiService.ts` — `transformRawApiResponse`, the post-network part of
  `extractFinancialData`
* `utils/csvUtils.ts`     — `convertToWideCSV`, `convertToLongCSV`, cell escaping
* `App.tsx`               — `processSingleFile`, `handleFileUpload` (batch orchestration)

JavaScript numbers are embedded as `Int` (the claims never depend on numeric
magnitude, only on serialization structure); a JS object used as a string-keyed
map is embedded as an association list with JavaScript assignment semantics
(update in place if the key exists, append otherwise).  A JS property that may
be `undefined` is an outer `Option`; a field that may be `null` is an inner
`Option`.  DOM, network, timers and React rendering are not part of the
embedding; the per-file asynchronous callbacks of `processSingleFile` are
embedded as the possible outcomes of a single file's processing.
-/

/-! Part: String helpers embedding the JavaScript primitives used by the code -/

/-- Embeds `haystack.startsWith(needle)` on exploded strings. -/
def startsWithList : List Char → List Char → Bool
  | _, [] => true
  | [], _ :: _ => false
  | c :: cs, p :: ps => c = p && startsWithList cs ps

/-- Embeds JavaScript `String.prototype.includes` (substring test). -/
def containsList : List Char → List Char → Bool
  | [], pat => pat.isEmpty
  | c :: cs, pat => startsWithList (c :: cs) pat || containsList cs pat

/-- `s.includes(pat)` for strings. -/
def jsIncludes (s pat : String) : Bool :=
  containsList s.toList pat.toList

/-- `s.includes(c)` for a one-character pattern. -/
def strContains (s : String) (c : Char) : Bool :=
  s.toList.contains c

/-- Embeds `s.replace(/,/g, '')`: delete every comma. -/
def stripCommas (s : String) : String :=
  String.mk (s.toList.filter (fun c => c ≠ ','))

/-- Embeds `s.replace(/"/g, '""')`: double every double quote. -/
def doubleQuotes (s : String) : String :=
  String.mk (s.toList.flatMap (fun c => if c = '"' then ['"', '"'] else [c]))

/-! Part: JS-object-as-map embedding (`{ [year: string]: number | null }`)

`setKey` is JS property assignment `obj[k] = v`; `getKey` is property read,
with `none` for an absent key (JS `undefined`) and `some none` for a key that
is present with value `null`. -/

def setKey : List (String × Option Int) → String → Option Int → List (String × Option Int)
  | [], k, v => [(k, v)]
  | (k', v') :: rest, k, v =>
      if k' = k then (k, v) :: rest else (k', v') :: setKey rest k v

def getKey : List (String × Option Int) → String → Option (Option Int)
  | [], _ => none
  | (k, v) :: rest, y => if y = k then some v else getKey rest y

/-! Part: Data model (`types.ts`) -/

structure LineItem where
  name : String
  standardized_name : String
  values : List (String × Option Int)
  deriving DecidableEq, Repr

structure FinancialData where
  company_name : String
  currency : Option String
  units : Option String
  years : List String
  line_items : List LineItem
  missing_line_items : List String
  completeness : String
  deriving DecidableEq, Repr

inductive AppStatus where
  | IDLE
  | UPLOADING
  | PROCESSING
  | SUCCESS
  | ERROR
  deriving DecidableEq, Repr

/-! Part: Raw API response (`geminiService.ts`)

Every field the transform reads defensively (`raw.x || default`) is an
`Option`; JS treats the empty string as falsy, which the `jsOr*` helpers
reproduce. -/

structure RawYearlyValue where
  year : String
  value : Option Int
  deriving DecidableEq, Repr

structure RawLineItem where
  name : String
  standardized_name : String
  yearly_values : Option (List RawYearlyValue)
  deriving DecidableEq, Repr

structure RawResponse where
  company_name : Option String
  currency : Option String
  units : Option String
  years : Option (List String)
  line_items : Option (List RawLineItem)
  missing_line_items : Option (List String)
  completeness : Option String
  deriving DecidableEq, Repr

/-- JS `x || default` for a possibly-absent string (empty string is falsy). -/
def jsOrString (o : Option String) (d : String) : String :=
  match o with
  | some s => if s = "" then d else s
  | none => d

/-- JS `x || null` for a possibly-absent string (empty string collapses to null). -/
def jsOrNull (o : Option String) : Option String :=
  match o with
  | some s => if s = "" then none else some s
  | none => none

/-- One line item of `transformRawApiResponse`: the nested `yearly_values`
array is folded into an object by repeated JS assignment (`reduce` with
`acc[v.year] = v.value`). -/
def transformLineItem (item : RawLineItem) : LineItem :=
  { name := item.name
    standardized_name := item.standardized_name
    values := (item.yearly_values.getD []).foldl
      (fun acc v => setKey acc v.year v.value) [] }

/-- `transformRawApiResponse` of `geminiService.ts`. -/
def transformRawApiResponse (raw : RawResponse) : FinancialData :=
  { company_name := jsOrString raw.company_name "Unknown Entity"
    currency := jsOrNull raw.currency
    units := jsOrNull raw.units
    years := raw.years.getD []
    line_items := (raw.line_items.getD []).map transformLineItem
    missing_line_items := raw.missing_line_items.getD []
    completeness := jsOrString raw.completeness "Not Found" }

/-! Part: Lemmas about the JS-object fold -/

theorem getKey_setKey (m : List (String × Option Int)) (k y : String) (v : Option Int) :
    getKey (setKey m k v) y = if y = k then some v else getKey m y := by
  induction m with
  | nil => simp [setKey, getKey]
  | cons hd tl ih =>
      obtain ⟨k', v'⟩ := hd
      by_cases hk : k' = k
      · subst hk
        by_cases hy : y = k' <;> simp [setKey, getKey, hy]
      · simp only [setKey, if_neg hk, getKey, ih]
        by_cases hy : y = k'
        · have hyk : ¬ y = k := by rw [hy]; exact hk
          simp [hy, hyk, hk]
        · simp [hy]

theorem getKey_foldl_setKey (l : List RawYearlyValue) (init : List (String × Option Int))
    (y : String) :
    getKey (l.foldl (fun acc v => setKey acc v.year v.value) init) y =
      (((l.filter (fun v => v.year = y)).getLast?.map
        (fun e => some e.value)).getD (getKey init y)) := by
  induction l generalizing init with
  | nil => simp
  | cons hd tl ih =>
      rw [List.foldl_cons, ih]
      by_cases hhd : hd.year = y
      · rw [List.filter_cons_of_pos (by simp [hhd])]
        cases hft : tl.filter (fun v => decide (v.year = y)) with
        | nil =>
            simp only [hft, List.getLast?_nil, Option.map_none', Option.getD_none,
              List.getLast?_singleton, Option.map_some', Option.getD_some]
            rw [getKey_setKey, if_pos hhd.symm]
        | cons a as =>
            rw [List.getLast?_cons_cons]
            cases h2 : (a :: as).getLast? with
            | none => exact absurd (List.getLast?_eq_none_iff.mp h2) (by simp)
            | some e => simp [h2]
      · rw [List.filter_cons_of_neg (by simp [hhd]), getKey_setKey,
          if_neg (fun h => hhd h.symm)]

/-! Part: Claim C1 — the response normalizer's year-keyed mapping -/

/-- C1: for every raw API response, `transformRawApiResponse` converts each
line item's nested `yearly_values` array into a year-keyed mapping: every
entry assigns its value to its year key, with the last entry winning on a
duplicated year label, and an item with no `yearly_values` yields the empty
mapping. -/
theorem transformRawApiResponse_values_spec (raw : RawResponse) :
    (transformRawApiResponse raw).line_items
      = (raw.line_items.getD []).map transformLineItem
    ∧ ∀ item : RawLineItem,
        (∀ (y : String) (e : RawYearlyValue),
          ((item.yearly_values.getD []).filter (fun v => v.year = y)).getLast? = some e →
            getKey (transformLineItem item).values y = some e.value)
        ∧ (item.yearly_values.getD [] = [] → (transformLineItem item).values = []) := by
  refine ⟨rfl, fun item => ⟨fun y e he => ?_, fun hnil => ?_⟩⟩
  · show getKey ((item.yearly_values.getD []).foldl
      (fun acc v => setKey acc v.year v.value) []) y = some e.value
    rw [getKey_foldl_setKey, he]
    rfl
  · show ((item.yearly_values.getD []).foldl
      (fun acc v => setKey acc v.year v.value) []) = []
    rw [hnil]
    rfl

/-- A raw line item with a duplicated year label, used to exercise C1. -/
def rawItem0 : RawLineItem :=
  { name := "Revenue"
    standardized_name := "Revenue from Operations"
    yearly_values := some [⟨"2023", some 10⟩, ⟨"2024", some 5⟩, ⟨"2023", some 7⟩] }

/-- A concrete raw API response used to exercise C1. -/
def raw0 : RawResponse :=
  { company_name := some "Acme Ltd"
    currency := some "INR"
    units := none
    years := some ["2023", "2024"]
    line_items := some [rawItem0]
    missing_line_items := some []
    completeness := some "Complete" }

theorem transformRawApiResponse_values_spec_witness :
    ((rawItem0.yearly_values.getD []).filter (fun v => v.year = "2023")).getLast?
        = some ⟨"2023", some 7⟩
      ∧ getKey (transformLineItem rawItem0).values "2023" = some (some 7) :=
  ⟨by decide,
    ((transformRawApiResponse_values_spec raw0).2 rawItem0).1 "2023" ⟨"2023", some 7⟩
      (by decide)⟩

/-! Part: CSV serializers (`utils/csvUtils.ts`) -/

/-- Serialization of one cell's looked-up value (csvUtils.ts 13-17 and 45-48):
`""` when `item.values[year]` is `undefined` or `null`, otherwise
`val.toString().replace(/,/g, '')`. -/
def serializeVal (v : Option (Option Int)) : String :=
  match v with
  | none => ""
  | some none => ""
  | some (some n) => stripCommas (toString n)

/-- The quoting trigger of the cell escaper (csvUtils.ts 25 and 64):
the cell contains a comma, a double quote, or a newline. -/
def needsQuote (s : String) : Bool :=
  strContains s ',' || strContains s '"' || strContains s '\n'

/-- The per-cell escaping shared verbatim by both converters
(csvUtils.ts 23-28 and 62-67). -/
def escapeCell (s : String) : String :=
  if needsQuote s then "\"" ++ doubleQuotes s ++ "\"" else s

/-- Final join of both converters:
`[headers, ...rows].map(row => row.map(escape).join(",")).join("\n")`. -/
def serializeTable (table : List (List String)) : String :=
  String.intercalate "\n" (table.map (fun row => String.intercalate "," (row.map escapeCell)))

/-- Header row of `convertToWideCSV` (csvUtils.ts 10). -/
def wideHeaders (data : FinancialData) : List String :=
  ["Line Item (Original)", "Standardized Name"] ++ data.years

/-- One data row of `convertToWideCSV` (csvUtils.ts 12-19). -/
def wideRow (data : FinancialData) (item : LineItem) : List String :=
  [item.name, item.standardized_name] ++
    data.years.map (fun year => serializeVal (getKey item.values year))

/-- `convertToWideCSV` of csvUtils.ts. -/
def convertToWideCSV (data : FinancialData) : String :=
  if data.line_items.length = 0 then ""
  else serializeTable (wideHeaders data :: data.line_items.map (wideRow data))

/-- Header row of `convertToLongCSV` (csvUtils.ts 40). -/
def longHeaders : List String :=
  ["Source / Company", "Line Item (Original)", "Standardized Name", "Period", "Value"]

/-- One pushed row of `convertToLongCSV` (csvUtils.ts 49-55). -/
def longRow (data : FinancialData) (item : LineItem) (year : String) : List String :=
  [data.company_name, item.name, item.standardized_name, year,
    serializeVal (getKey item.values year)]

/-- The `rows` array built by the three nested `forEach` loops of
`convertToLongCSV` via `rows.push(...)` (csvUtils.ts 41-58). -/
def longCSVRows (dataList : List FinancialData) : List (List String) :=
  dataList.foldl (fun rows data =>
    data.line_items.foldl (fun rows item =>
      data.years.foldl (fun rows year => rows ++ [longRow data item year]) rows) rows) []

/-- `convertToLongCSV` of csvUtils.ts. -/
def convertToLongCSV (dataList : List FinancialData) : String :=
  if dataList.length = 0 then ""
  else serializeTable (longHeaders :: longCSVRows dataList)

/-! Part: Lemmas about the push-style folds -/

theorem foldl_append_flatMap {α β : Type} (g : α → List β) :
    ∀ (l : List α) (init : List β),
      l.foldl (fun acc a => acc ++ g a) init = init ++ l.flatMap g
  | [], init => by simp
  | a :: l, init => by
      rw [List.foldl_cons, foldl_append_flatMap g l (init ++ g a), List.flatMap_cons,
        List.append_assoc]

theorem foldl_push_eq_append_map {α β : Type} (f : α → β) (l : List α) (init : List β) :
    l.foldl (fun acc a => acc ++ [f a]) init = init ++ l.map f := by
  induction l generalizing init with
  | nil => simp
  | cons a l ih =>
      rw [List.foldl_cons, ih]
      simp

theorem lineItems_fold_eq (d : FinancialData) :
    ∀ (items : List LineItem) (rows : List (List String)),
      items.foldl (fun rows item =>
        d.years.foldl (fun rows year => rows ++ [longRow d item year]) rows) rows
      = rows ++ items.flatMap (fun item => d.years.map (longRow d item)) := by
  intro items
  induction items with
  | nil => intro rows; simp
  | cons i is ih =>
      intro rows
      rw [List.foldl_cons, foldl_push_eq_append_map, ih, List.flatMap_cons, List.append_assoc]

theorem longCSVRows_eq_flatMap (dataList : List FinancialData) :
    longCSVRows dataList
      = dataList.flatMap (fun d => d.line_items.flatMap (fun item =>
          d.years.map (longRow d item))) := by
  have key : ∀ (dl : List FinancialData) (rows : List (List String)),
      dl.foldl (fun rows data =>
        data.line_items.foldl (fun rows item =>
          data.years.foldl (fun rows year => rows ++ [longRow data item year]) rows) rows) rows
      = rows ++ dl.flatMap (fun d => d.line_items.flatMap (fun item =>
          d.years.map (longRow d item))) := by
    intro dl
    induction dl with
    | nil => intro rows; simp
    | cons d ds ih =>
        intro rows
        rw [List.foldl_cons, lineItems_fold_eq, ih, List.flatMap_cons, List.append_assoc]
  unfold longCSVRows
  rw [key, List.nil_append]

/-! Part: Claim C2 — long CSV row structure -/

/-- C2: for every non-empty list of datasets, `convertToLongCSV` emits the
fixed 5-column header followed by exactly one data row
`[company, original name, standardized name, year, value]` per
(dataset, line item, year) triple, in dataset order, then line-item order,
then year order; the number of data rows is the sum over datasets of
`|line_items| * |years|`. -/
theorem convertToLongCSV_spec (dataList : List FinancialData) (h : dataList ≠ []) :
    longHeaders.length = 5
    ∧ longCSVRows dataList
        = dataList.flatMap (fun d => d.line_items.flatMap (fun item =>
            d.years.map (fun year =>
              [d.company_name, item.name, item.standardized_name, year,
                serializeVal (getKey item.values year)])))
    ∧ (longCSVRows dataList).length
        = (dataList.map (fun d => d.line_items.length * d.years.length)).sum
    ∧ convertToLongCSV dataList = serializeTable (longHeaders :: longCSVRows dataList) := by
  refine ⟨rfl, longCSVRows_eq_flatMap dataList, ?_, ?_⟩
  · rw [longCSVRows_eq_flatMap]
    simp [Function.comp_def, List.map_const', List.sum_replicate, smul_eq_mul]
  · have hlen : ¬ dataList.length = 0 := by
      simpa [List.length_eq_zero] using h
    unfold convertToLongCSV
    rw [if_neg hlen]

/-- A line item used in concrete instances. -/
def item0 : LineItem :=
  { name := "Revenue"
    standardized_name := "Revenue from Operations"
    values := [("2023", some 100), ("2024", none)] }

/-- A second line item used in concrete instances. -/
def item1 : LineItem :=
  { name := "Total Expenses"
    standardized_name := "Total Expenses"
    values := [("2023", some 40)] }

/-- A concrete dataset used in concrete instances. -/
def data0 : FinancialData :=
  { company_name := "Acme Ltd"
    currency := some "INR"
    units := some "Lakhs"
    years := ["2023", "2024"]
    line_items := [item0, item1]
    missing_line_items := []
    completeness := "Complete" }

/-- A second dataset; its company name contains a comma. -/
def data1 : FinancialData :=
  { company_name := "Globex, Inc"
    currency := none
    units := none
    years := ["2024"]
    line_items := [item0]
    missing_line_items := ["PBT"]
    completeness := "Partial" }

theorem convertToLongCSV_spec_witness :
    ([data0, data1] : List FinancialData) ≠ []
    ∧ (longCSVRows [data0, data1]).length
        = ([data0, data1].map (fun d => d.line_items.length * d.years.length)).sum :=
  ⟨by decide, (convertToLongCSV_spec [data0, data1] (by decide)).2.2.1⟩

/-! Part: Claim C3 — wide CSV row structure -/

theorem getD_append_two {α : Type} (a b : α) (l : List α) (j : Nat) (d : α) :
    (a :: b :: l).getD (j + 2) d = l.getD j d := rfl

theorem getD_map_of_lt {α β : Type} (f : α → β) (da : α) (db : β) :
    ∀ (l : List α) (j : Nat), j < l.length → (l.map f).getD j db = f (l.getD j da) := by
  intro l
  induction l with
  | nil => intro j hj; simp at hj
  | cons x xs ih =>
      intro j hj
      cases j with
      | zero => rfl
      | succ j =>
          have := ih j (by simpa using hj)
          simpa using this

/-- C3: for every dataset with a non-empty `line_items` list,
`convertToWideCSV` emits the header row
`["Line Item (Original)", "Standardized Name", ...years]` followed by
exactly one row per line item, each with `2 + |years|` fields whose field
`j+2` is the serialized value of that item for `years[j]`, preserving
line-item and year order. -/
theorem convertToWideCSV_spec (data : FinancialData) (h : data.line_items ≠ []) :
    wideHeaders data = ["Line Item (Original)", "Standardized Name"] ++ data.years
    ∧ (data.line_items.map (wideRow data)).length = data.line_items.length
    ∧ (∀ item ∈ data.line_items,
        (wideRow data item).length = 2 + data.years.length
        ∧ (wideRow data item).take 2 = [item.name, item.standardized_name]
        ∧ ∀ j, j < data.years.length →
            (wideRow data item).getD (j + 2) ""
              = serializeVal (getKey item.values (data.years.getD j "")))
    ∧ convertToWideCSV data
        = serializeTable (wideHeaders data :: data.line_items.map (wideRow data)) := by
  refine ⟨rfl, List.length_map _ _, fun item _ => ⟨?_, rfl, fun j hj => ?_⟩, ?_⟩
  · simp [wideRow]
    omega
  · show (item.name :: item.standardized_name ::
      data.years.map (fun year => serializeVal (getKey item.values year))).getD (j + 2) ""
      = serializeVal (getKey item.values (data.years.getD j ""))
    rw [getD_append_two,
      getD_map_of_lt (fun year => serializeVal (getKey item.values year)) "" ""
        data.years j hj]
  · have hlen : ¬ data.line_items.length = 0 := by
      simpa [List.length_eq_zero] using h
    unfold convertToWideCSV
    rw [if_neg hlen]

theorem convertToWideCSV_spec_witness :
    item0 ∈ data0.line_items ∧ (1 : Nat) < data0.years.length
    ∧ (wideRow data0 item0).getD 3 "" = serializeVal (getKey item0.values (data0.years.getD 1 "")) :=
  ⟨by decide, by decide,
    ((convertToWideCSV_spec data0 (by decide)).2.2.1 item0 (by decide)).2.2 1 (by decide)⟩

/-! Part: Claim C9 — the shared cell-escaping rule -/

theorem contains_filter_ne (l : List Char) (c : Char) :
    (l.filter (fun x => x ≠ c)).contains c = false := by
  induction l with
  | nil => rfl
  | cons hd tl ih =>
      by_cases h : hd = c
      · simp [List.filter_cons, h, ih]
      · have hne : ¬ c = hd := fun hc => h hc.symm
        simp [List.filter_cons, h, List.contains_cons, hne, ih]

theorem strContains_stripCommas (s : String) :
    strContains (stripCommas s) ',' = false := by
  show (String.mk (s.toList.filter (fun c => c ≠ ','))).toList.contains ',' = false
  exact contains_filter_ne s.toList ','

theorem strContains_serializeVal (v : Option (Option Int)) :
    strContains (serializeVal v) ',' = false := by
  match v with
  | none => rfl
  | some none => rfl
  | some (some n) => exact strContains_stripCommas (toString n)

/-- C9: in both CSV serializers every cell goes through the same escaping
rule: a cell containing a comma, a double quote, or a newline is wrapped in
double quotes with every inner double quote doubled, and any other cell is
emitted verbatim; a serialized numeric cell never contains a comma, so it
is never quoted by the comma rule. -/
theorem escapeCell_spec (s : String) (v : Option (Option Int)) :
    (needsQuote s = (strContains s ',' || strContains s '"' || strContains s '\n'))
    ∧ (needsQuote s = true → escapeCell s = "\"" ++ doubleQuotes s ++ "\"")
    ∧ (needsQuote s = false → escapeCell s = s)
    ∧ strContains (serializeVal v) ',' = false
    ∧ (∀ dataList : List FinancialData, dataList ≠ [] →
        convertToLongCSV dataList = String.intercalate "\n"
          ((longHeaders :: longCSVRows dataList).map
            (fun row => String.intercalate "," (row.map escapeCell))))
    ∧ (∀ data : FinancialData, data.line_items ≠ [] →
        convertToWideCSV data = String.intercalate "\n"
          ((wideHeaders data :: data.line_items.map (wideRow data)).map
            (fun row => String.intercalate "," (row.map escapeCell)))) := by
  refine ⟨rfl, fun hq => ?_, fun hq => ?_, strContains_serializeVal v, fun dl hdl => ?_, fun d hd => ?_⟩
  · rw [escapeCell, if_pos hq]
  · rw [escapeCell, if_neg (by simp [hq])]
  · exact (convertToLongCSV_spec dl hdl).2.2.2
  · exact (convertToWideCSV_spec d hd).2.2.2

theorem escapeCell_spec_witness :
    needsQuote "Globex, Inc" = true
    ∧ escapeCell "Globex, Inc" = "\"" ++ doubleQuotes "Globex, Inc" ++ "\""
    ∧ needsQuote "Acme Ltd" = false
    ∧ escapeCell "Acme Ltd" = "Acme Ltd"
    ∧ strContains (serializeVal (some (some 1234567))) ',' = false :=
  ⟨by decide,
    (escapeCell_spec "Globex, Inc" none).2.1 (by decide),
    by decide,
    (escapeCell_spec "Acme Ltd" none).2.2.1 (by decide),
    (escapeCell_spec "" (some (some 1234567))).2.2.2.1⟩

/-! Part: Claim C10 — missing data stays blank -/

/-- C10: for every line item and year label, both converters emit the empty
string when `item.values[year]` is absent (`undefined`) or `null`, and the
comma-stripped `toString` of the number otherwise; the emitted cell is the
one placed in the item's wide row and in the `(company, item, year)` long
row. -/
theorem serializeVal_missing_blank (data : FinancialData) (item : LineItem) (year : String)
    (hitem : item ∈ data.line_items) (hyear : year ∈ data.years) :
    ((getKey item.values year = none ∨ getKey item.values year = some none) →
        serializeVal (getKey item.values year) = "")
    ∧ (∀ n : Int, getKey item.values year = some (some n) →
        serializeVal (getKey item.values year) = stripCommas (toString n))
    ∧ wideRow data item ∈ data.line_items.map (wideRow data)
    ∧ serializeVal (getKey item.values year) ∈ wideRow data item
    ∧ longRow data item year ∈ longCSVRows [data]
    ∧ (longRow data item year).getD 4 "" = serializeVal (getKey item.values year) := by
  refine ⟨fun hmiss => ?_, fun n hn => ?_, List.mem_map_of_mem _ hitem, ?_, ?_, rfl⟩
  · rcases hmiss with hmiss | hmiss <;> rw [hmiss] <;> rfl
  · rw [hn]
    rfl
  · show serializeVal (getKey item.values year)
      ∈ [item.name, item.standardized_name] ++
        data.years.map (fun y => serializeVal (getKey item.values y))
    exact List.mem_append_right _ (List.mem_map_of_mem _ hyear)
  · rw [longCSVRows_eq_flatMap]
    refine List.mem_flatMap.mpr ⟨data, by simp, ?_⟩
    exact List.mem_flatMap.mpr ⟨item, hitem, List.mem_map_of_mem _ hyear⟩

theorem serializeVal_missing_blank_witness :
    item0 ∈ data0.line_items ∧ "2024" ∈ data0.years
    ∧ getKey item0.values "2024" = some none
    ∧ serializeVal (getKey item0.values "2024") = "" :=
  ⟨by decide, by decide, by decide,
    (serializeVal_missing_blank data0 item0 "2024" (by decide) (by decide)).1
      (Or.inr (by decide))⟩

/-! Part: Claim C4 — the extraction client's parse-and-transform step -/

/-- Post-network logic of `extractFinancialData` (geminiService.ts 61-94).
`rawText` embeds `response.text` (`none` when the SDK returns no text);
`parsed` embeds the outcome of `JSON.parse` plus the transform's field
accesses on the parsed value, `none` when that try-block throws.  An empty
or absent text throws the empty-response error; a parse/transform throw is
caught and rethrown as the unrecognizable-structure error; otherwise the
parsed object is normalized by `transformRawApiResponse`. -/
def extractFinancialData (rawText : Option String) (parsed : Option RawResponse) :
    Except String FinancialData :=
  if rawText = none ∨ rawText = some "" then
    Except.error "The extraction engine returned an empty response."
  else
    match parsed with
    | none => Except.error "The document was processed, but the data structure was unrecognizable."
    | some data => Except.ok (transformRawApiResponse data)

/-- A raw response with every optional field absent: the JSON object the empty JSON object. -/
def emptyRaw : RawResponse :=
  { company_name := none, currency := none, units := none, years := none,
    line_items := none, missing_line_items := none, completeness := none }

/-- C4: `extractFinancialData` fails exactly when the model's response text
is empty/absent or the text cannot be parsed and transformed, and otherwise
returns the normalized data; a well-formed JSON object is never rejected
for missing fields — the transform substitutes defaults, as the the empty JSON object
instance shows. -/
theorem extractFinancialData_spec (rawText : Option String) (parsed : Option RawResponse) :
    ((∃ e, extractFinancialData rawText parsed = Except.error e) ↔
      (rawText = none ∨ rawText = some "" ∨ parsed = none))
    ∧ (∀ s raw, rawText = some s → s ≠ "" → parsed = some raw →
        extractFinancialData rawText parsed = Except.ok (transformRawApiResponse raw))
    ∧ extractFinancialData (some "\x7b\x7d") (some emptyRaw) = Except.ok
        { company_name := "Unknown Entity", currency := none, units := none, years := [],
          line_items := [], missing_line_items := [], completeness := "Not Found" } := by
  refine ⟨⟨fun he => ?_, fun hcase => ?_⟩, fun s raw hs hne hp => ?_, by rfl⟩
  · by_cases hempty : rawText = none ∨ rawText = some ""
    · rcases hempty with hh | hh
      · exact Or.inl hh
      · exact Or.inr (Or.inl hh)
    · cases hparsed : parsed with
      | none => exact Or.inr (Or.inr rfl)
      | some raw =>
          exfalso
          obtain ⟨e, he⟩ := he
          rw [extractFinancialData.eq_def, if_neg hempty, hparsed] at he
          exact Except.noConfusion he
  · rcases hcase with hh | hh | hh
    · exact ⟨_, by rw [extractFinancialData.eq_def, if_pos (Or.inl hh)]⟩
    · exact ⟨_, by rw [extractFinancialData.eq_def, if_pos (Or.inr hh)]⟩
    · by_cases hempty : rawText = none ∨ rawText = some ""
      · exact ⟨_, by rw [extractFinancialData.eq_def, if_pos hempty]⟩
      · exact ⟨_, by rw [extractFinancialData.eq_def, if_neg hempty, hh]⟩
  · have hempty : ¬ (rawText = none ∨ rawText = some "") := by
      rcases rawText with _ | t
      · exact absurd hs (by simp)
      · rintro (hh | hh)
        · exact Option.noConfusion hh
        · exact hne (by injection hs.symm.trans hh)
    rw [extractFinancialData.eq_def, if_neg hempty, hp]

theorem extractFinancialData_spec_witness :
    extractFinancialData (some "ok") (some raw0) = Except.ok (transformRawApiResponse raw0) :=
  (extractFinancialData_spec (some "ok") (some raw0)).2.1 "ok" raw0 rfl (by decide) rfl

/-! Part: Batch orchestration model (`App.tsx`) -/

/-- Per-file processing status (App.tsx 12-15). -/
inductive FileStatus where
  | uploading
  | processing
  | done
  | error
  deriving DecidableEq, Repr

/-- One queue entry (App.tsx 12-15). -/
structure FileState where
  name : String
  status : FileStatus
  deriving DecidableEq, Repr

/-- How a single file's asynchronous processing can end (App.tsx 43-78):
the FileReader load fires and `extractFinancialData` resolves with data;
the load fires and the extraction (or the base64 step) throws with message
`errMsg`; or the read itself fails and `reader.onerror` fires. -/
inductive FileOutcome where
  | success (data : FinancialData)
  | extractFailure (errMsg : String)
  | readFailure
  deriving DecidableEq, Repr

/-- A file selected by the user, together with the outcome its processing
would have (the environment's behaviour, fixed per file). -/
structure UploadFile where
  name : String
  type : String
  outcome : FileOutcome
  deriving DecidableEq, Repr

/-- `ExtractionResult` (App.tsx 7-10). -/
structure ExtractionResult where
  fileName : String
  data : FinancialData
  deriving DecidableEq, Repr

/-- The claim-relevant component state of `App` (App.tsx 18-23). -/
structure AppState where
  status : AppStatus
  results : List ExtractionResult
  error : Option String
  queue : List FileState
  isKeyConfigured : Bool
  deriving DecidableEq, Repr

/-- The sequence of status values written for one file: the initial
`uploading` seeded by `handleFileUpload` (App.tsx 93) followed by the
writes that file's own `processSingleFile` run performs (App.tsx 50, 54,
66, 72).  Each of those writes is applied to the queue by `setQueueStatus`,
which keys on the file NAME, so the values land on every same-named entry,
not only on this file's own entry. -/
def processTrace : FileOutcome → List FileStatus
  | FileOutcome.success _ => [FileStatus.uploading, FileStatus.processing, FileStatus.done]
  | FileOutcome.extractFailure _ => [FileStatus.uploading, FileStatus.processing, FileStatus.error]
  | FileOutcome.readFailure => [FileStatus.uploading, FileStatus.error]

/-- The value `processSingleFile` resolves with (App.tsx 55, 67, 73): the
result on success, JS `null` on any failure — the promise never rejects. -/
def processSingleFileResult (f : UploadFile) : Option ExtractionResult :=
  match f.outcome with
  | FileOutcome.success d => some { fileName := f.name, data := d }
  | FileOutcome.extractFailure _ => none
  | FileOutcome.readFailure => none

/-- The authentication-failure banner text (App.tsx 63). -/
def authFailureMessage : String := "Authentication failed. Please re-configure your API key."

/-- State effect of `processSingleFile`'s catch handler (App.tsx 56-68): an
extraction failure whose message contains one of the two authentication
error markers flips `isKeyConfigured` off and sets the banner; any other
outcome leaves `error` and `isKeyConfigured` untouched. -/
def processSingleFileEffect (st : AppState) (f : UploadFile) : AppState :=
  match f.outcome with
  | FileOutcome.extractFailure msg =>
      if jsIncludes msg "API key not valid" || jsIncludes msg "Requested entity was not found" then
        { st with isKeyConfigured := false, error := some authFailureMessage }
      else st
  | _ => st

/-- Whether `processSingleFile` ever invokes `extractFinancialData` for this
file: the call sits inside `reader.onload` (App.tsx 52), so it happens on
every outcome except a failed read. -/
def invokesExtract (f : UploadFile) : Bool :=
  match f.outcome with
  | FileOutcome.readFailure => false
  | _ => true

/-- Number of `extractFinancialData` invocations `handleFileUpload` performs
for a selected batch: the fan-out maps `processSingleFile` over the
PDF-filtered list (App.tsx 84, 104), and each of those calls the extractor
exactly when its `reader.onload` fires. -/
def extractCallCount (files : List UploadFile) : Nat :=
  ((files.filter (fun f => f.type = "application/pdf")).filter invokesExtract).length

/-- The `fileList` local of `handleFileUpload` (App.tsx 84): the selected
files restricted to PDF-typed ones. -/
def pdfFilter (files : List UploadFile) : List UploadFile :=
  files.filter (fun f => f.type = "application/pdf")

/-- The `newQueueItems` local of `handleFileUpload` (App.tsx 93): one
`uploading` entry per PDF file. -/
def newQueueItems (files : List UploadFile) : List FileState :=
  (pdfFilter files).map (fun f => { name := f.name, status := FileStatus.uploading })

/-- The `validResults` local of `handleFileUpload` (App.tsx 104-109): the
settled per-file results with the `null`s filtered out. -/
def validResults (files : List UploadFile) : List ExtractionResult :=
  ((pdfFilter files).map processSingleFileResult).filterMap id

/-- `handleFileUpload` (App.tsx 80-118) on the claim-relevant state: PDF
filtering, queue seeding, fan-out over `processSingleFile`, and the fan-in
that appends the successful results and sets the final status.  The timer
and the processing message are presentation-only and not modelled; the
concurrent per-file state effects are `processSingleFileEffect`.  In the
all-failed branch the code checks the stale closure value of `error` (the
value `st.error` had when the handler was created), not the value it just
cleared. -/
def handleFileUpload (st : AppState) (files : List UploadFile) : AppState :=
  if files.length = 0 then st
  else if (pdfFilter files).length = 0 then
    { st with error := some "Please select one or more PDF documents." }
  else if 0 < (validResults files).length then
    { st with
      status := AppStatus.SUCCESS
      error := none
      queue := st.queue ++ newQueueItems files
      results := st.results ++ validResults files }
  else
    { st with
      status := AppStatus.ERROR
      error :=
        if st.error = none then some "The documents could not be processed."
        else none
      queue := st.queue ++ newQueueItems files }

/-! Part: Claim C5 — forward-only per-file status -/

/-- Modelled from the claim: the forward-only step relation on a file's
status — `uploading` may step to `processing` or `error`, `processing` may
step to `done` or `error`, and `done`/`error` admit no further step. -/
def statusStepOK : FileStatus → FileStatus → Bool
  | FileStatus.uploading, FileStatus.processing => true
  | FileStatus.uploading, FileStatus.error => true
  | FileStatus.processing, FileStatus.done => true
  | FileStatus.processing, FileStatus.error => true
  | _, _ => false

/-- The queue update performed by every status write of `processSingleFile`
(App.tsx 50, 54, 66, 72):
`setQueue(prev => prev.map(f => f.name === file.name ? ... : f))` —
the write is keyed by file NAME over the whole persistent queue, not by the
identity of the file being processed. -/
def setQueueStatus (queue : List FileState) (fname : String) (stt : FileStatus) :
    List FileState :=
  queue.map (fun f => if f.name = fname then { f with status := stt } else f)

/-- A queue after a first batch finished (its `report.pdf` entry is `done`)
and a second file also named `report.pdf` was added via the Add More input
(App.tsx 287) and seeded `uploading` — `handleFileUpload` appends to the
existing queue (App.tsx 94) without clearing it. -/
def queue0 : List FileState :=
  [{ name := "report.pdf", status := FileStatus.done },
   { name := "report.pdf", status := FileStatus.uploading }]

/-- C5 counterexample: the `processing` write fired while processing the
second `report.pdf` also rewrites the finished first entry, stepping it
backward `done → processing` — so a status of `done` is not "never changed
again" as the claim states. -/
theorem processTrace_counterexample :
    queue0[0]? = some { name := "report.pdf", status := FileStatus.done }
    ∧ (setQueueStatus queue0 "report.pdf" FileStatus.processing)[0]?
        = some { name := "report.pdf", status := FileStatus.processing }
    ∧ statusStepOK FileStatus.done FileStatus.processing = false := by
  refine ⟨rfl, rfl, rfl⟩

/-- C5 (amended): a file's status only ever takes a value in
{uploading, processing, done, error}; the sequence written for each
file starts at the `uploading` seeded by `handleFileUpload`, every
consecutive write of its own `processSingleFile` run is a forward step
(`uploading → processing | error`, `processing → done | error`), and that
sequence ends at `done` or `error` with no further write of its own.  But
each write is applied to every queue entry bearing the file's NAME: a write
never touches an entry with a different name and always overwrites every
entry with the written name — so a stored `done`/`error` status is
permanent only as long as no later-processed file shares the entry's name. -/
theorem processTrace_spec (o : FileOutcome) :
    (processTrace o).head? = some FileStatus.uploading
    ∧ List.Chain' (fun a b => statusStepOK a b = true) (processTrace o)
    ∧ ((processTrace o).getLast? = some FileStatus.done
        ∨ (processTrace o).getLast? = some FileStatus.error)
    ∧ (∀ s ∈ processTrace o,
        s = FileStatus.uploading ∨ s = FileStatus.processing
        ∨ s = FileStatus.done ∨ s = FileStatus.error)
    ∧ (∀ (st : AppState) (files : List UploadFile) (q : FileState),
        q ∈ (handleFileUpload st files).queue →
          q ∈ st.queue ∨ q.status = FileStatus.uploading)
    ∧ (∀ (queue : List FileState) (fname : String) (stt : FileStatus) (i : Nat)
        (q : FileState), queue[i]? = some q → q.name ≠ fname →
          (setQueueStatus queue fname stt)[i]? = some q)
    ∧ (∀ (queue : List FileState) (fname : String) (stt : FileStatus) (i : Nat)
        (q : FileState), queue[i]? = some q → q.name = fname →
          (setQueueStatus queue fname stt)[i]?
            = some { name := q.name, status := stt }) := by
  refine ⟨?_, ?_, ?_, ?_, ?_, ?_, ?_⟩
  · cases o <;> rfl
  · cases o <;> simp [processTrace, statusStepOK]
  · cases o <;> simp [processTrace]
  · intro s hs
    cases s <;> simp
  · intro st files q hq
    unfold handleFileUpload at hq
    by_cases h0 : files.length = 0
    · rw [if_pos h0] at hq
      exact Or.inl hq
    · rw [if_neg h0] at hq
      by_cases h1 : (pdfFilter files).length = 0
      · rw [if_pos h1] at hq
        exact Or.inl hq
      · rw [if_neg h1] at hq
        by_cases h2 : 0 < (validResults files).length
        · rw [if_pos h2] at hq
          rcases List.mem_append.mp hq with h | h
          · exact Or.inl h
          · obtain ⟨f, _, hf⟩ := List.mem_map.mp h
            exact Or.inr (by rw [← hf])
        · rw [if_neg h2] at hq
          rcases List.mem_append.mp hq with h | h
          · exact Or.inl h
          · obtain ⟨f, _, hf⟩ := List.mem_map.mp h
            exact Or.inr (by rw [← hf])
  · intro queue fname stt i q hq hne
    unfold setQueueStatus
    rw [List.getElem?_map, hq]
    simp [hne]
  · intro queue fname stt i q hq heq
    unfold setQueueStatus
    rw [List.getElem?_map, hq]
    simp [heq]

theorem processTrace_spec_witness :
    queue0[1]? = some { name := "report.pdf", status := FileStatus.uploading }
    ∧ (setQueueStatus queue0 "report.pdf" FileStatus.processing)[1]?
        = some { name := "report.pdf", status := FileStatus.processing } :=
  ⟨by decide,
    (processTrace_spec FileOutcome.readFailure).2.2.2.2.2.2 queue0 "report.pdf"
      FileStatus.processing 1 { name := "report.pdf", status := FileStatus.uploading }
      (by decide) rfl⟩

/-! Part: Claim C6 — one extraction call per file -/

/-- A non-PDF file: `handleFileUpload` filters it out before the fan-out,
so no extraction call is ever made for it. -/
def nonPdfFile : UploadFile :=
  { name := "notes.txt", type := "text/plain", outcome := FileOutcome.readFailure }

/-- A PDF file whose processing succeeds with the data of `data0`. -/
def pdfFileOk : UploadFile :=
  { name := "report.pdf", type := "application/pdf", outcome := FileOutcome.success data0 }

/-- A PDF file whose extraction throws a generic error. -/
def pdfFileBad : UploadFile :=
  { name := "broken.pdf", type := "application/pdf"
    outcome := FileOutcome.extractFailure "The extraction engine returned an empty response." }

/-- A PDF file whose extraction throws an authentication error. -/
def pdfFileAuth : UploadFile :=
  { name := "auth.pdf", type := "application/pdf"
    outcome := FileOutcome.extractFailure "API key not valid. Please pass a valid API key." }

/-- A PDF file whose FileReader read fails, so `reader.onload` never fires. -/
def pdfFileReadFail : UploadFile :=
  { name := "scan.pdf", type := "application/pdf", outcome := FileOutcome.readFailure }

/-- C6 counterexample: for the one-file batch `[nonPdfFile]` (filtered out
before the fan-out) and for the one-file batch `[pdfFileReadFail]` (fanned
out, but `reader.onload` never fires so the extractor is never called) the
orchestrator performs zero extraction calls, not one per file. -/
theorem extractCallCount_counterexample :
    extractCallCount [nonPdfFile] = 0 ∧ ([nonPdfFile] : List UploadFile).length = 1
    ∧ extractCallCount [pdfFileReadFail] = 0
    ∧ ([pdfFileReadFail] : List UploadFile).length = 1 := by
  refine ⟨rfl, rfl, rfl, rfl⟩

/-- C6 (amended): the orchestrator fans out one `extractFinancialData` call
per PDF-typed file of the selected batch whose file read succeeds — so the
call count equals the batch size exactly when every selected file is a PDF
and every read fires `onload`. -/
theorem extractCallCount_spec (files : List UploadFile) :
    extractCallCount files
      = files.countP (fun f => f.type = "application/pdf" && invokesExtract f)
    ∧ extractCallCount files ≤ files.length
    ∧ ((∀ f ∈ files, f.type = "application/pdf" ∧ f.outcome ≠ FileOutcome.readFailure) →
        extractCallCount files = files.length) := by
  refine ⟨?_, ?_, fun hall => ?_⟩
  · unfold extractCallCount
    rw [List.filter_filter, List.countP_eq_length_filter]
    congr 1
    exact List.filter_congr (fun x _ => by rw [Bool.and_comm])
  · exact le_trans (List.length_filter_le _ _) (List.length_filter_le _ _)
  · unfold extractCallCount
    have h1 : files.filter (fun f => f.type = "application/pdf") = files :=
      List.filter_eq_self.mpr (fun f hf => by simp [(hall f hf).1])
    rw [h1]
    have h2 : files.filter invokesExtract = files :=
      List.filter_eq_self.mpr (fun f hf => by
        have := (hall f hf).2
        unfold invokesExtract
        cases houc : f.outcome with
        | success d => rfl
        | extractFailure m => rfl
        | readFailure => exact absurd houc this)
    rw [h2]

theorem extractCallCount_spec_witness :
    (∀ f ∈ ([pdfFileOk, pdfFileBad] : List UploadFile),
      f.type = "application/pdf" ∧ f.outcome ≠ FileOutcome.readFailure)
    ∧ extractCallCount [pdfFileOk, pdfFileBad] = 2 := by
  refine ⟨by decide, ?_⟩
  have h := (extractCallCount_spec [pdfFileOk, pdfFileBad]).2.2 (by decide)
  simpa using h

/-! Part: Claim C7 — aggregation of partial failures -/

/-- An idle initial app state. -/
def st0 : AppState :=
  { status := AppStatus.IDLE, results := [], error := none, queue := [], isKeyConfigured := true }

/-- C7: after all per-file extractions settle, exactly the successful
extractions — each paired with its file name, in input order — are appended
to the results while failed files contribute nothing; at least one success
makes the app status SUCCESS, and an all-failed batch makes it ERROR with
the results list unchanged. -/
theorem handleFileUpload_aggregation (st : AppState) (files : List UploadFile)
    (h : pdfFilter files ≠ []) :
    validResults files = (pdfFilter files).filterMap processSingleFileResult
    ∧ (validResults files ≠ [] →
        (handleFileUpload st files).results = st.results ++ validResults files
        ∧ (handleFileUpload st files).status = AppStatus.SUCCESS)
    ∧ (validResults files = [] →
        (handleFileUpload st files).results = st.results
        ∧ (handleFileUpload st files).status = AppStatus.ERROR)
    ∧ (∀ f ∈ pdfFilter files, ∀ d, f.outcome = FileOutcome.success d →
        ({ fileName := f.name, data := d } : ExtractionResult) ∈ validResults files)
    ∧ (∀ r ∈ validResults files, ∃ f ∈ pdfFilter files,
        f.name = r.fileName ∧ f.outcome = FileOutcome.success r.data) := by
  have hfilterMap : validResults files = (pdfFilter files).filterMap processSingleFileResult := by
    unfold validResults
    rw [List.filterMap_map]
    rfl
  have hf0 : ¬ files.length = 0 := by
    intro hlen
    rw [List.length_eq_zero] at hlen
    subst hlen
    exact h rfl
  have hp0 : ¬ (pdfFilter files).length = 0 := by
    simpa [List.length_eq_zero] using h
  refine ⟨hfilterMap, fun hv => ?_, fun hv => ?_, fun f hf d hd => ?_, fun r hr => ?_⟩
  · have hpos : 0 < (validResults files).length := List.length_pos.mpr hv
    unfold handleFileUpload
    rw [if_neg hf0, if_neg hp0, if_pos hpos]
    exact ⟨rfl, rfl⟩
  · have hpos : ¬ 0 < (validResults files).length := by simp [hv]
    unfold handleFileUpload
    rw [if_neg hf0, if_neg hp0, if_neg hpos]
    exact ⟨rfl, rfl⟩
  · rw [hfilterMap]
    refine List.mem_filterMap.mpr ⟨f, hf, ?_⟩
    unfold processSingleFileResult
    rw [hd]
  · rw [hfilterMap] at hr
    obtain ⟨f, hf, hps⟩ := List.mem_filterMap.mp hr
    refine ⟨f, hf, ?_⟩
    cases houc : f.outcome with
    | success d =>
        unfold processSingleFileResult at hps
        rw [houc] at hps
        have hrd : ({ fileName := f.name, data := d } : ExtractionResult) = r :=
          Option.some.inj hps
        rw [← hrd]
        exact ⟨rfl, rfl⟩
    | extractFailure m =>
        unfold processSingleFileResult at hps
        rw [houc] at hps
        exact Option.noConfusion hps
    | readFailure =>
        unfold processSingleFileResult at hps
        rw [houc] at hps
        exact Option.noConfusion hps

theorem handleFileUpload_aggregation_witness :
    pdfFilter [pdfFileOk, pdfFileBad, nonPdfFile] ≠ []
    ∧ validResults [pdfFileOk, pdfFileBad, nonPdfFile] ≠ []
    ∧ (handleFileUpload st0 [pdfFileOk, pdfFileBad, nonPdfFile]).results
        = st0.results ++ validResults [pdfFileOk, pdfFileBad, nonPdfFile]
    ∧ (handleFileUpload st0 [pdfFileOk, pdfFileBad, nonPdfFile]).status = AppStatus.SUCCESS := by
  refine ⟨by decide, by decide, ?_, ?_⟩
  · exact ((handleFileUpload_aggregation st0 [pdfFileOk, pdfFileBad, nonPdfFile]
      (by decide)).2.1 (by decide)).1
  · exact ((handleFileUpload_aggregation st0 [pdfFileOk, pdfFileBad, nonPdfFile]
      (by decide)).2.1 (by decide)).2

/-! Part: Claim C8 — authentication-failure detection -/

/-- C8: for each failed per-file extraction, exactly the error messages
containing "API key not valid" or "Requested entity was not found" make the
app mark the key unconfigured and set the authentication banner, while any
other outcome leaves those fields untouched; every failure ends the file's
status at `error` and resolves the per-file promise with `null` instead of
rejecting the batch. -/
theorem processSingleFileEffect_spec (st : AppState) (f : UploadFile) :
    (∀ msg, f.outcome = FileOutcome.extractFailure msg →
      (((jsIncludes msg "API key not valid"
          || jsIncludes msg "Requested entity was not found") = true →
        processSingleFileEffect st f
          = { st with isKeyConfigured := false, error := some authFailureMessage })
      ∧ ((jsIncludes msg "API key not valid"
          || jsIncludes msg "Requested entity was not found") = false →
        processSingleFileEffect st f = st)))
    ∧ ((∀ d, f.outcome ≠ FileOutcome.success d) →
        (processTrace f.outcome).getLast? = some FileStatus.error
        ∧ processSingleFileResult f = none)
    ∧ (f.outcome = FileOutcome.readFailure → processSingleFileEffect st f = st)
    ∧ (∀ d, f.outcome = FileOutcome.success d → processSingleFileEffect st f = st) := by
  refine ⟨fun msg hmsg => ⟨fun hauth => ?_, fun hother => ?_⟩, fun hfail => ?_,
    fun hrf => ?_, fun d hd => ?_⟩
  · unfold processSingleFileEffect
    rw [hmsg]
    simp only [hauth, if_pos]
  · unfold processSingleFileEffect
    rw [hmsg]
    simp only [hother, Bool.false_eq_true, if_false]
  · cases houc : f.outcome with
    | success d => exact absurd houc (hfail d)
    | extractFailure m =>
        exact ⟨rfl, by unfold processSingleFileResult; rw [houc]⟩
    | readFailure =>
        exact ⟨rfl, by unfold processSingleFileResult; rw [houc]⟩
  · unfold processSingleFileEffect
    rw [hrf]
  · unfold processSingleFileEffect
    rw [hd]

theorem processSingleFileEffect_spec_witness :
    pdfFileAuth.outcome
        = FileOutcome.extractFailure "API key not valid. Please pass a valid API key."
    ∧ (jsIncludes "API key not valid. Please pass a valid API key." "API key not valid"
        || jsIncludes "API key not valid. Please pass a valid API key."
            "Requested entity was not found") = true
    ∧ processSingleFileEffect st0 pdfFileAuth
        = { st0 with isKeyConfigured := false, error := some authFailureMessage } :=
  ⟨rfl, by decide,
    ((processSingleFileEffect_spec st0 pdfFileAuth).1 _ rfl).1 (by decide)⟩
